import Mathlib

/-!
Verification development for the VLA semantic-robustness test harness.

The Python sources embedded here are `src/mutation_generator.py` (a pure
instruction-mutation engine) and `src/run_octo_robustness.py` (the
experiment controller: calibration, baseline, mutation sweep, phase
gating and the locked-configuration snapshot).

Embedding conventions:
* Python strings are Lean `String`s (ASCII-faithful; `str.strip`,
  `str.lower`, `str.capitalize` and the regular-expression fragments the
  code uses are modelled below on `List Char`).
* Code that can raise (`text[0]` on an empty string, `tasks[0]` on an
  empty list, `seeds[i % len(seeds)]` with no seeds) is embedded in
  `Option`: `none` models an uncaught Python exception.
* `random.Random(seed)` is modelled by a choice oracle
  `pyChoice seed : List String → String` that deterministically returns
  an element of the list it is given.  The Mersenne-Twister stream is not
  reproduced bit for bit; no theorem below depends on which element a
  draw returns, only on the draw being a deterministic function of the
  seed and on membership in the choice list.
* The simulator and policy collaborators (`simpler_env`, `OctoInference`)
  are abstracted as oracles: the language instruction an environment
  reset yields, and the success flag of one episode rollout.
-/

/-! ### Python string primitives -/

/-- The characters stripped by Python `str.strip()` (and matched by the
regex class `\s`): space, tab, newline, carriage return, vertical tab,
form feed. -/
def isPySpace (c : Char) : Bool :=
  c = ' ' || c = Char.ofNat 9 || c = Char.ofNat 10 || c = Char.ofNat 13 ||
  c = Char.ofNat 11 || c = Char.ofNat 12

/-- Python `str.strip()` with no arguments. -/
def pyStrip (s : String) : String :=
  ⟨((s.data.dropWhile isPySpace).reverse.dropWhile isPySpace).reverse⟩

/-- Python `str.lower()` (ASCII). -/
def pyLower (s : String) : String :=
  ⟨s.data.map Char.toLower⟩

/-- Python `str.capitalize()` (ASCII): first character uppercased, all
remaining characters lowercased. -/
def pyCapitalize (s : String) : String :=
  match s.data with
  | [] => ""
  | c :: cs => ⟨c.toUpper :: cs.map Char.toLower⟩

/-- Python `text[0].lower() + text[1:]`; `none` models the `IndexError`
raised on the empty string. -/
def lowerFirst (s : String) : Option String :=
  match s.data with
  | [] => none
  | c :: cs => some ⟨c.toLower :: cs⟩

/-- A word character in the sense of the regex `\w` / `\b` (ASCII). -/
def isWordChar (c : Char) : Bool :=
  c.isAlpha || c.isDigit || c = '_'

/-- Case-insensitive character comparison, as under `re.IGNORECASE`. -/
def lowEq (a b : Char) : Bool :=
  a.toLower = b.toLower

/-- Does `l` start with `key`, case-insensitively? -/
def startsWithCI : List Char → List Char → Bool
  | [], _ => true
  | _ :: _, [] => false
  | k :: ks, c :: cs => lowEq k c && startsWithCI ks cs

/-- Does `l` start with `key` (case-sensitively)? -/
def startsWithCS : List Char → List Char → Bool
  | [], _ => true
  | _ :: _, [] => false
  | k :: ks, c :: cs => (k = c) && startsWithCS ks cs

/-- The regex boundary `\b` seen from the character to the left of the
current position (`none` = start of text).  All keys this file uses with
`\b` begin and end with word characters, so the boundary holds exactly
when the neighbouring character is not a word character. -/
def isBoundary : Option Char → Bool
  | none => true
  | some c => !isWordChar c

/-- The boundary `\b` seen from the remainder of the text to the right. -/
def afterBoundary : List Char → Bool
  | [] => true
  | c :: _ => !isWordChar c

/-- Does the text contain `key` as a whole word, case-insensitively?
Models `re.search(rf"\b{re.escape(key)}\b", text, re.IGNORECASE)` being
truthy, for keys made of word characters. -/
def containsWordAux (key : List Char) : Option Char → List Char → Bool
  | _, [] => false
  | prev, c :: cs =>
    (isBoundary prev && startsWithCI key (c :: cs) &&
      afterBoundary (List.drop key.length (c :: cs)))
    || containsWordAux key (some c) cs

/-- String-level wrapper for `containsWordAux`. -/
def containsWordCI (key text : String) : Bool :=
  containsWordAux key.data none text.data

/-- Replace every whole-word, case-insensitive occurrence of `k0 :: ks`
by `repl`, scanning left to right without overlap.  Models
`re.sub(rf"\b{re.escape(key)}\b", repl, text, flags=re.IGNORECASE)` for
keys made of word characters and plain replacement strings.  The `fuel`
argument makes the recursion structural; it is initialised to the text
length and, since every step consumes at least one character, is never
exhausted. -/
def replaceWordAux (k0 : Char) (ks repl : List Char) :
    Nat → Option Char → List Char → List Char
  | 0, _, l => l
  | _ + 1, _, [] => []
  | fuel + 1, prev, c :: cs =>
    if isBoundary prev && startsWithCI (k0 :: ks) (c :: cs) &&
        afterBoundary (List.drop ks.length cs) then
      repl ++ replaceWordAux k0 ks repl fuel
        (some ((List.take ks.length cs).getLastD c)) (List.drop ks.length cs)
    else
      c :: replaceWordAux k0 ks repl fuel (some c) cs

/-- String-level wrapper for `replaceWordAux`. -/
def replaceWordCI (key repl text : String) : String :=
  match key.data with
  | [] => text
  | k :: ks => ⟨replaceWordAux k ks repl.data text.data.length none text.data⟩

/-- Replace every occurrence of the substring `k0 :: ks` by `repl`,
left to right, without overlap.  With `ci = true` the match is
case-insensitive (models `re.sub` on a literal pattern with
`re.IGNORECASE`); with `ci = false` it is Python `str.replace`.  The
`fuel` argument makes the recursion structural; it is initialised to the
text length and never exhausted. -/
def replaceSubAux (ci : Bool) (k0 : Char) (ks repl : List Char) :
    Nat → List Char → List Char
  | 0, l => l
  | _ + 1, [] => []
  | fuel + 1, c :: cs =>
    if (if ci then startsWithCI else startsWithCS) (k0 :: ks) (c :: cs) then
      repl ++ replaceSubAux ci k0 ks repl fuel (List.drop ks.length cs)
    else
      c :: replaceSubAux ci k0 ks repl fuel cs

/-- Case-insensitive literal-pattern `re.sub(key, repl, text, re.IGNORECASE)`. -/
def replaceSubCI (key repl text : String) : String :=
  match key.data with
  | [] => text
  | k :: ks => ⟨replaceSubAux true k ks repl.data text.data.length text.data⟩

/-- Python `text.replace(key, repl)` (case-sensitive). -/
def replaceSubCS (key repl text : String) : String :=
  match key.data with
  | [] => text
  | k :: ks => ⟨replaceSubAux false k ks repl.data text.data.length text.data⟩

/-- Does `text` contain `key` as a (case-sensitive) substring?  Models
Python `key in text`. -/
def containsSubAux (key : List Char) : List Char → Bool
  | [] => startsWithCS key []
  | c :: cs => startsWithCS key (c :: cs) || containsSubAux key cs

/-- String-level wrapper for `containsSubAux`. -/
def containsSub (key text : String) : Bool :=
  containsSubAux key.data text.data

/-! ### `src/mutation_generator.py` -/

/-- The type of the per-call random source: `random.Random(seed).choice`
viewed as a choice oracle over string lists. -/
abbrev RngT : Type := List String → String

/-- A valid random source returns an element of any non-empty list it is
asked to choose from. -/
def ValidRng (rng : RngT) : Prop :=
  ∀ l : List String, l ≠ [] → rng l ∈ l

/-- Deterministic model of `random.Random(seed).choice`: pick the element
at index `seed % len`.  Any deterministic element-returning function is a
faithful model for the theorems below. -/
def pyChoice (seed : Nat) : RngT :=
  fun l => l.getD (seed % l.length) ""

/-- A single quote character (used by the `"don't"` triggers). -/
def squote : String := ⟨[Char.ofNat 39]⟩

/-- `MUTATION_CATEGORIES` from `mutation_generator.py`. -/
def MUTATION_CATEGORIES : List String :=
  ["synonyms", "passive_voice", "spatial_reordering", "formal_informal",
   "verb_phrasing", "object_descriptors", "directional_language",
   "temporal_modifiers", "negation_positive", "complexity_variation"]

/-- `_ensure_change`: keep `mutated` unless it equals the original up to
surrounding whitespace and case, in which case use the fallback.  The
fallback is `Option`-valued because evaluating it may raise. -/
def ensureChange (original mutated : String) (fallback : Option String) :
    Option String :=
  if pyLower (pyStrip mutated) = pyLower (pyStrip original) then fallback
  else some mutated

/-- `_replace_any`: substitute the first replacement key that occurs as a
whole word (case-insensitively), with a seeded choice; otherwise return
the text unchanged. -/
def replaceAny (text : String) (replacements : List (String × List String))
    (rng : RngT) : String :=
  match replacements.find? (fun kv => containsWordCI kv.1 text) with
  | some kv => replaceWordCI kv.1 (rng kv.2) text
  | none => text

/-- The replacement table of `_synonyms`. -/
def synonymsRepl : List (String × List String) :=
  [("pick", ["grab", "lift", "take"]),
   ("move", ["shift", "relocate", "transport"]),
   ("place", ["put", "set", "position"]),
   ("put", ["place", "set", "position"]),
   ("stack", ["pile", "layer"]),
   ("open", ["unseal", "unlock", "pull open"]),
   ("close", ["shut", "seal", "push closed"]),
   ("into", ["inside", "in"]),
   ("on", ["on top of"])]

/-- `_synonyms`: substitute every matching key in table order (later keys
see earlier substitutions); if nothing matched, and again if the result
is unchanged, fall back to the politeness prefix (which indexes
`text[0]`). -/
def mut_synonyms (text : String) (rng : RngT) : Option String :=
  let res := synonymsRepl.foldl
    (fun (acc : String × Bool) kv =>
      if containsWordCI kv.1 acc.1 then
        (replaceWordCI kv.1 (rng kv.2) acc.1, true)
      else acc)
    (text, false)
  let fb : Option String := (lowerFirst text).map (fun lf => "Please " ++ lf)
  let mutated : Option String := if res.2 then some res.1 else fb
  mutated.bind (fun m => ensureChange text m fb)

/-- The leading group of `_passive_voice`'s pattern `r"^(\\w+)(.*)$"`.
In a raw string `\\w` is a literal backslash followed by `w`, so the
group matches a backslash followed by one or more `w` characters; the
match fails on any other beginning.  Returns (group 1, group 2). -/
def backslashWMatch (l : List Char) : Option (List Char × List Char) :=
  match l with
  | '\\' :: rest =>
    let ws := rest.takeWhile (fun c => c = 'w')
    if ws.length = 0 then none
    else some ('\\' :: ws, rest.drop ws.length)
  | _ => none

/-- `_passive_voice`. -/
def mut_passive_voice (text : String) (_rng : RngT) : Option String :=
  match backslashWMatch (pyStrip text).data with
  | none => some (text ++ " should be done.")
  | some (verb, rest) =>
    let rest := pyStrip ⟨rest⟩
    if rest = "" then some (text ++ " should be performed.")
    else some (rest ++ " should be " ++ pyLower ⟨verb⟩ ++ "ed.")

/-- One alternative of `_spatial_reordering`'s pattern
`r"\b(into|in|on|inside)\b\s+([^,]+)"` tried at the current position:
returns `(group 0, group 1, group 2)` on success.  The `\s+` is greedy
but backs off one space when everything after the spaces up to the next
comma is empty, in which case `[^,]+` consumes the final space. -/
def trySpatialAt (alt : List Char) (prev : Option Char) (l : List Char) :
    Option (List Char × List Char × List Char) :=
  if isBoundary prev && startsWithCI alt l then
    let altTxt := l.take alt.length
    let rest := l.drop alt.length
    if afterBoundary rest then
      let ws := rest.takeWhile isPySpace
      if ws.length = 0 then none
      else
        let afterWs := rest.drop ws.length
        let r := afterWs.takeWhile (fun c => c ≠ ',')
        if r.length ≠ 0 then some (altTxt ++ ws ++ r, altTxt, r)
        else if 2 ≤ ws.length then
          some (altTxt ++ ws, altTxt, [ws.getLastD ' '])
        else none
    else none
  else none

/-- The alternation `(into|in|on|inside)`, in pattern order. -/
def spatialAlts : List (List Char) :=
  [['i','n','t','o'], ['i','n'], ['o','n'], ['i','n','s','i','d','e']]

/-- Leftmost match of `_spatial_reordering`'s search pattern. -/
def findSpatialAux : Option Char → List Char →
    Option (List Char × List Char × List Char)
  | _, [] => none
  | prev, c :: cs =>
    match (spatialAlts.map (fun alt => trySpatialAt alt prev (c :: cs))).reduceOption.head? with
    | some g => some g
    | none => findSpatialAux (some c) cs

/-- String-level wrapper: `re.search(r"\b(into|in|on|inside)\b\s+([^,]+)", text, re.IGNORECASE)`. -/
def findSpatial (text : String) : Option (String × String × String) :=
  (findSpatialAux none text.data).map (fun g => (⟨g.1⟩, ⟨g.2.1⟩, ⟨g.2.2⟩))

/-- The fallback replacement table of `_spatial_reordering`. -/
def spatialRepl : List (String × List String) :=
  [("left", ["on the left", "to your left"]),
   ("right", ["on the right", "to your right"]),
   ("front", ["in front", "ahead"]),
   ("behind", ["in the back", "behind you"])]

/-- `_spatial_reordering`. -/
def mut_spatial_reordering (text : String) (rng : RngT) : Option String :=
  match findSpatial text with
  | some (g0, g1, g2) =>
    let phrase := g1 ++ " " ++ pyStrip g2
    let rest := pyStrip (replaceSubCI g0 "" text)
    let mutated := pyCapitalize phrase ++ ", " ++ rest
    ensureChange text mutated (some text)
  | none =>
    let mutated := replaceAny text spatialRepl rng
    ensureChange text mutated (some (text ++ " on the left side."))

/-- The replacement table of `_formal_informal`. -/
def formalRepl : List (String × List String) :=
  [("get", ["retrieve", "obtain"]),
   ("grab", ["retrieve", "obtain"]),
   ("take", ["retrieve", "obtain"]),
   ("move", ["relocate", "transport"]),
   ("put", ["place", "deposit"]),
   ("pick", ["retrieve", "lift"])]

/-- `_formal_informal`; the fallback builds both candidate strings from
`text[0]` before choosing, so it raises on the empty string. -/
def mut_formal_informal (text : String) (rng : RngT) : Option String :=
  let mutated := replaceAny text formalRepl rng
  ensureChange text mutated
    ((lowerFirst text).map (fun lf => rng ["Please " ++ lf, "Hey, " ++ lf]))

/-- The replacement table of `_verb_phrasing`. -/
def verbRepl : List (String × List String) :=
  [("pick up", ["lift up", "raise", "collect"]),
   ("move", ["move over", "carry", "bring"]),
   ("place", ["set down", "put down"]),
   ("put", ["set down", "drop off"]),
   ("stack", ["pile up", "stack up"]),
   ("open", ["pull open", "swing open"]),
   ("close", ["push shut", "swing shut"])]

/-- `_verb_phrasing`: first key occurring as a plain substring of the
lowercased text is substituted case-insensitively (no word boundaries);
with no match the function returns the `"Go ahead and"` prefix, which
indexes `text[0]`. -/
def mut_verb_phrasing (text : String) (rng : RngT) : Option String :=
  match verbRepl.find? (fun kv => containsSub kv.1 (pyLower text)) with
  | some kv =>
    ensureChange text (replaceSubCI kv.1 (rng kv.2) text) (some text)
  | none => (lowerFirst text).map (fun lf => "Go ahead and " ++ lf)

/-- The replacement table of `_object_descriptors`. -/
def objectRepl : List (String × List String) :=
  [("red", ["crimson", "scarlet"]),
   ("green", ["emerald", "lime"]),
   ("blue", ["azure", "navy"]),
   ("coke", ["soda", "cola"]),
   ("eggplant", ["purple eggplant", "fresh eggplant"]),
   ("basket", ["wire basket", "small basket"]),
   ("carrot", ["orange carrot", "fresh carrot"])]

/-- `_object_descriptors`. -/
def mut_object_descriptors (text : String) (rng : RngT) : Option String :=
  ensureChange text (replaceAny text objectRepl rng)
    (some (text ++ " using the item in view."))

/-- The replacement table of `_directional_language`. -/
def directionalRepl : List (String × List String) :=
  [("toward", ["in the direction of", "closer to"]),
   ("near", ["close to", "adjacent to"]),
   ("away", ["farther from", "further from"])]

/-- `_directional_language`. -/
def mut_directional_language (text : String) (rng : RngT) : Option String :=
  ensureChange text (replaceAny text directionalRepl rng)
    (some (text ++ " toward the target."))

/-- `_temporal_modifiers`: triggers on `"now"` as a plain substring of
the lowercased text, but substitutes only whole-word occurrences — when
`"now"` occurs only inside another word the text is returned unchanged. -/
def mut_temporal_modifiers (text : String) (rng : RngT) : Option String :=
  if containsSub "now" (pyLower text) then
    some (replaceWordCI "now" (rng ["right away", "immediately"]) text)
  else some (text ++ " right away.")

/-- The `"don't"` trigger string. -/
def dontStr : String := "don" ++ squote ++ "t"

/-- The reminder leads of `_negation_positive`. -/
def negLeads : List String :=
  ["Don" ++ squote ++ "t forget to", "Please remember to", "Make sure to"]

/-- `_negation_positive`: triggers case-insensitively but replaces
case-sensitively, so capitalised negations pass through unchanged; the
reminder branch indexes `text[0]`. -/
def mut_negation_positive (text : String) (rng : RngT) : Option String :=
  if containsSub dontStr (pyLower text) || containsSub "do not" (pyLower text) then
    some (replaceSubCS "do not" "avoid" (replaceSubCS dontStr "avoid" text))
  else
    (lowerFirst text).map (fun lf => rng negLeads ++ " " ++ lf)

/-- `_complexity_variation`; the insertion branch indexes `text[0]`. -/
def mut_complexity_variation (text : String) (_rng : RngT) : Option String :=
  if containsSub "carefully" (pyLower text) then
    some (pyStrip (replaceWordCI "carefully" "" text))
  else
    (lowerFirst text).map (fun lf => "Carefully " ++ lf)

/-- `_MUTATORS.get(category)`: the category-to-mutator dict, viewed as
the key-dispatch function a dict lookup is (its keys are exactly
`MUTATION_CATEGORIES`; insertion order is immaterial to `.get`). -/
def mutatorFor (category : String) :
    Option (String → RngT → Option String) :=
  if category = "synonyms" then some mut_synonyms
  else if category = "passive_voice" then some mut_passive_voice
  else if category = "spatial_reordering" then some mut_spatial_reordering
  else if category = "formal_informal" then some mut_formal_informal
  else if category = "verb_phrasing" then some mut_verb_phrasing
  else if category = "object_descriptors" then some mut_object_descriptors
  else if category = "directional_language" then some mut_directional_language
  else if category = "temporal_modifiers" then some mut_temporal_modifiers
  else if category = "negation_positive" then some mut_negation_positive
  else if category = "complexity_variation" then some mut_complexity_variation
  else none

/-- The final `strip`-and-reinstate step of `generate_mutation`. -/
def finalizeMut (instruction m : String) : String :=
  let t := pyStrip m
  if t = "" then instruction else t

/-- `generate_mutation` with the random source abstracted. -/
def generate_mutation_rng (rng : RngT) (instruction category : String) :
    Option String :=
  match mutatorFor category with
  | none => some instruction
  | some mutator => (mutator instruction rng).map (finalizeMut instruction)

/-- `generate_mutation(instruction, category, seed)`: the random source
is freshly derived from `seed` on every call. -/
def generate_mutation (instruction category : String) (seed : Nat) :
    Option String :=
  generate_mutation_rng (pyChoice seed) instruction category

/-! ### `src/run_octo_robustness.py` -/

/-- A value of the loaded configuration mapping (the JSON/YAML dict):
strings, numbers and homogeneous lists are all the configuration file
uses.  Numbers that Python reads with `float(...)` are rationals. -/
inductive CVal where
  | s (v : String)
  | n (v : Int)
  | q (v : ℚ)
  | sl (v : List String)
  | nl (v : List Nat)
  | ql (v : List ℚ)
deriving DecidableEq

/-- The loaded configuration dict, as an association list in insertion
order (JSON object keys are unique). -/
abbrev Cfg : Type := List (String × CVal)

/-- Python `cfg.get(key)` / `cfg[key]`. -/
def cfgLookup (cfg : Cfg) (k : String) : Option CVal :=
  (cfg.find? (fun kv => kv.1 = k)).map (fun kv => kv.2)

/-- Python `dict[key] = value`: overwrite in place, or append a new key. -/
def dictSet (cfg : Cfg) (k : String) (v : CVal) : Cfg :=
  if cfg.any (fun kv => kv.1 = k) then
    cfg.map (fun kv => if kv.1 = k then (k, v) else kv)
  else cfg ++ [(k, v)]

/-- `str(...)` of a configuration value, as used on well-typed configs. -/
def CVal.asStr : CVal → Option String
  | .s v => some v
  | _ => none

/-- `int(...)` of a configuration value. -/
def CVal.asInt : CVal → Option Int
  | .n v => some v
  | _ => none

/-- `float(...)` of a configuration value (accepts ints). -/
def CVal.asQ : CVal → Option ℚ
  | .q v => some v
  | .n v => some (v : ℚ)
  | _ => none

/-- `list(...)` of a string list. -/
def CVal.asStrList : CVal → Option (List String)
  | .sl v => some v
  | _ => none

/-- `list(...)` of a seed list (the seeds the experiment uses are the
non-negative integers `range(10)` or explicit ints). -/
def CVal.asNatList : CVal → Option (List Nat)
  | .nl v => some v
  | _ => none

/-- `list(...)` of a numeric list read as floats. -/
def CVal.asQList : CVal → Option (List ℚ)
  | .ql v => some v
  | .nl v => some (v.map (fun n => (n : ℚ)))
  | _ => none

/-- Required key: `cfg[k]` (`none` models `KeyError`). -/
def getReq (cfg : Cfg) (k : String) (conv : CVal → Option α) : Option α :=
  (cfgLookup cfg k).bind conv

/-- Optional key with default: `conv(cfg.get(k, d))`. -/
def getOpt (cfg : Cfg) (k : String) (conv : CVal → Option α) (d : α) :
    Option α :=
  match cfgLookup cfg k with
  | none => some d
  | some v => conv v

/-- `RunConfig` from `run_octo_robustness.py`. -/
structure RunConfig where
  policy : String
  policy_setup : String
  tasks : List String
  camera : String
  max_steps : Int
  action_scale : ℚ
  heuristic_grasp_steps : Int
  baseline_min_sr : ℚ
  seeds : List Nat
  calibration_scales : List ℚ
  calibration_episodes : Int
  results_path : String
  log_path : String
  locked_config_path : String
deriving DecidableEq

/-- `_to_run_config`: resolve the raw dict into a `RunConfig`, applying
the documented defaults for absent keys. -/
def toRunConfig (cfg : Cfg) : Option RunConfig := do
  let policy ← getReq cfg "policy" CVal.asStr
  let policy_setup ← getReq cfg "policy_setup" CVal.asStr
  let tasks ← getReq cfg "tasks" CVal.asStrList
  let camera ← getOpt cfg "camera" CVal.asStr "3rd_view_camera"
  let max_steps ← getOpt cfg "max_steps" CVal.asInt 120
  let action_scale ← getOpt cfg "action_scale" CVal.asQ 1
  let heuristic_grasp_steps ← getOpt cfg "heuristic_grasp_steps" CVal.asInt 0
  let baseline_min_sr ← getOpt cfg "baseline_min_sr" CVal.asQ (mkRat 9 10)
  let seeds ← getOpt cfg "seeds" CVal.asNatList (List.range 10)
  let calibration_scales ← getOpt cfg "calibration_scales" CVal.asQList
    [mkRat 1 4, mkRat 1 2, mkRat 3 4, 1]
  let calibration_episodes ← getOpt cfg "calibration_episodes" CVal.asInt 5
  let results_path ← getOpt cfg "results_path" CVal.asStr
    "data/results/results.csv"
  let log_path ← getOpt cfg "log_path" CVal.asStr "data/logs/experiment.log"
  let locked_config_path ← getOpt cfg "locked_config_path" CVal.asStr
    "data/logs/locked_config.json"
  pure { policy, policy_setup, tasks, camera, max_steps, action_scale,
         heuristic_grasp_steps, baseline_min_sr, seeds, calibration_scales,
         calibration_episodes, results_path, log_path, locked_config_path }

/-- The external collaborators, abstracted: `instrOf task seed` is the
language instruction the simulator yields after `make(task)` and
`reset(seed=seed)`; `epSuccess task instruction seed scale` is the
success flag `_run_episode` reports for that rollout.  Everything the
claims under verification state is parametric in these outcomes. -/
structure Oracles where
  instrOf : String → Nat → String
  epSuccess : String → String → Nat → ℚ → Bool

/-- One ledger row, restricted to the fields the claims mention.  The
wall-clock `timestamp`, the simulator-reported `distance_to_target`,
`episode_length` and `notes` of the CSV schema are environment outputs
no claim constrains and are not modelled. -/
structure Row where
  trial_id : Nat
  task : String
  mutation_category : String
  original_instruction : String
  mutated_instruction : String
  success : Bool
  seed : Nat
deriving DecidableEq

/-- Python `max(1, n)` on ints (the division guard the controller uses). -/
def pyMaxOneInt (n : Int) : Int := if 1 < n then n else 1

/-- Python `max(1, n)` on the non-negative trial counter. -/
def pyMaxOneNat (n : Nat) : Nat := if 1 < n then n else 1

/-- The empirical success rate of one calibration candidate:
`successes / max(1, calibration_episodes)` (as an exact rational) over
`calibration_episodes` episodes whose seeds cycle through
`config.seeds`. Only evaluated when `config.seeds` is non-empty. -/
def calibSR (o : Oracles) (task : String) (config : RunConfig) (scale : ℚ) :
    ℚ :=
  let successes := (List.range config.calibration_episodes.toNat).countP
    (fun i =>
      let seed := config.seeds.getD (i % config.seeds.length) 0
      o.epSuccess task (o.instrOf task seed) seed scale)
  mkRat successes (pyMaxOneInt config.calibration_episodes).toNat

/-- One step of `calibrate_action_scale`'s best-tracking loop. -/
def calibStep (o : Oracles) (task : String) (config : RunConfig)
    (best : ℚ × ℚ) (scale : ℚ) : ℚ × ℚ :=
  if best.2 < calibSR o task config scale then (scale, calibSR o task config scale)
  else best

/-- `calibrate_action_scale`: sweep the candidates in configured order,
starting from `(config.action_scale, -1.0)`, keeping the first strictly
better candidate.  `none` models the `ZeroDivisionError` of
`seeds[i % len(seeds)]` when an episode runs with no seeds. -/
def calibrate_action_scale (o : Oracles) (task : String)
    (config : RunConfig) : Option ℚ :=
  if config.calibration_scales ≠ [] ∧ config.calibration_episodes.toNat ≠ 0 ∧
      config.seeds = [] then none
  else some
    (config.calibration_scales.foldl (calibStep o task config)
      (config.action_scale, (-1 : ℚ))).1

/-- The ledger row one baseline trial appends. -/
def baseRow (o : Oracles) (scale : ℚ) (task : String) (seed tid : Nat) :
    Row :=
  let instruction := o.instrOf task seed
  { trial_id := tid, task := task, mutation_category := "baseline",
    original_instruction := instruction, mutated_instruction := instruction,
    success := o.epSuccess task instruction seed scale, seed := seed }

/-- One iteration of `run_baseline`'s inner loop: state is
`(rows, trial_id, total, successes)`. -/
def baseStep (o : Oracles) (scale : ℚ) (task : String)
    (st : List Row × Nat × Nat × Nat) (seed : Nat) :
    List Row × Nat × Nat × Nat :=
  let row := baseRow o scale task seed st.2.1
  (st.1 ++ [row], st.2.1 + 1, st.2.2.1 + 1,
   st.2.2.2 + (if row.success then 1 else 0))

/-- `run_baseline`: the appended rows and the returned success rate
`successes / max(1, total)`. -/
def run_baseline (o : Oracles) (config : RunConfig) (action_scale : ℚ) :
    List Row × ℚ :=
  let st := config.tasks.foldl
    (fun st task => config.seeds.foldl (baseStep o action_scale task) st)
    (([], 0, 0, 0) : List Row × Nat × Nat × Nat)
  (st.1, mkRat st.2.2.2 (pyMaxOneNat st.2.2.1))

/-- The ledger row one mutation trial appends, given the generated
mutation text. -/
def mutRow (o : Oracles) (scale : ℚ) (task category : String)
    (seed tid : Nat) (mutated : String) : Row :=
  { trial_id := tid, task := task, mutation_category := category,
    original_instruction := o.instrOf task seed,
    mutated_instruction := mutated,
    success := o.epSuccess task mutated seed scale, seed := seed }

/-- One iteration of `run_mutations`' innermost loop: state is
`(rows, trial_id)`; `none` propagates a `generate_mutation` exception. -/
def mutStep (o : Oracles) (scale : ℚ) (task category : String)
    (st : List Row × Nat) (seed : Nat) : Option (List Row × Nat) :=
  (generate_mutation (o.instrOf task seed) category seed).map
    (fun mutated =>
      (st.1 ++ [mutRow o scale task category seed st.2 mutated], st.2 + 1))

/-- `run_mutations`: the rows appended by the task × category × seed
triple loop (task-major, then category in `MUTATION_CATEGORIES` order,
then seed-minor), with its own trial counter starting from 0. -/
def run_mutations (o : Oracles) (config : RunConfig) (action_scale : ℚ) :
    Option (List Row) :=
  (config.tasks.foldlM
    (fun st task => MUTATION_CATEGORIES.foldlM
      (fun st category =>
        config.seeds.foldlM (mutStep o action_scale task category) st)
      st)
    (([], 0) : List Row × Nat)).map (fun st => st.1)

/-- The phases accepted by the CLI (`--phase` has argparse choices). -/
inductive Phase where
  | align
  | baseline
  | mutations
  | all
deriving DecidableEq

/-- The align block of `main` (executed for phases `align` and `all`):
calibrate on the first configured task (`none` models the `IndexError`
of `config.tasks[0]` on an empty task list), run the baseline, and
assemble the locked configuration: a copy of the *raw* loaded dict with
`action_scale` and `baseline_sr` set.  Returns
`(action_scale, baseline rows, baseline_sr, locked dict)`. -/
def alignBlock (o : Oracles) (config : RunConfig) (cfg : Cfg) :
    Option (ℚ × List Row × ℚ × Cfg) := do
  let task0 ← config.tasks.head?
  let s ← calibrate_action_scale o task0 config
  let base := run_baseline o config s
  let locked := dictSet (dictSet cfg "action_scale" (CVal.q s))
    "baseline_sr" (CVal.q base.2)
  pure (s, base.1, base.2, locked)

/-- `main`, for one process invocation: resolves the configuration,
sequences the phases, and returns the locked-configuration dicts written
(in order) together with the ledger rows appended (in order).  `none`
models an uncaught exception. -/
def mainRun (o : Oracles) (cfg : Cfg) (phase : Phase) :
    Option (List Cfg × List Row) := do
  let config ← toRunConfig cfg
  match phase with
  | .align => do
    let (_, brows, _, locked) ← alignBlock o config cfg
    pure ([locked], brows)
  | .all => do
    let (s, brows, bsr, locked) ← alignBlock o config cfg
    if bsr < config.baseline_min_sr then
      pure ([locked], brows)
    else do
      let mrows ← run_mutations o config s
      pure ([locked], brows ++ mrows)
  | .baseline =>
    pure ([], (run_baseline o config config.action_scale).1)
  | .mutations => do
    let mrows ← run_mutations o config config.action_scale
    pure ([], mrows)

/-! ### Characterization helpers and concrete witness data -/

/-- The task × seed grid `run_baseline` walks, task-major. -/
def baseGrid (config : RunConfig) : List (String × Nat) :=
  config.tasks.flatMap (fun t => config.seeds.map (fun s => (t, s)))

/-- The success predicate of one baseline grid point. -/
def baseSucc (o : Oracles) (scale : ℚ) (ts : String × Nat) : Bool :=
  o.epSuccess ts.1 (o.instrOf ts.1 ts.2) ts.2 scale

/-- The baseline rows of one task, seeds in order, ids from `tid`. -/
def seedRows (o : Oracles) (scale : ℚ) (task : String) :
    Nat → List Nat → List Row
  | _, [] => []
  | tid, s :: rest => baseRow o scale task s tid ::
      seedRows o scale task (tid + 1) rest

/-- The baseline rows of a task list, ids from `tid`. -/
def taskRows (o : Oracles) (scale : ℚ) (seeds : List Nat) :
    Nat → List String → List Row
  | _, [] => []
  | tid, t :: rest => seedRows o scale t tid seeds ++
      taskRows o scale seeds (tid + seeds.length) rest

/-- The row a successful mutation trial appends, with the mutated text
extracted from the (necessarily `some`) generator output. -/
def mutRowD (o : Oracles) (scale : ℚ) (task category : String)
    (seed tid : Nat) : Row :=
  mutRow o scale task category seed tid
    ((generate_mutation (o.instrOf task seed) category seed).getD "")

/-- The mutation rows of one (task, category), seeds in order. -/
def mutSeedRows (o : Oracles) (scale : ℚ) (task category : String) :
    Nat → List Nat → List Row
  | _, [] => []
  | tid, s :: rest => mutRowD o scale task category s tid ::
      mutSeedRows o scale task category (tid + 1) rest

/-- The mutation rows of one task over a category list. -/
def mutCatRows (o : Oracles) (scale : ℚ) (task : String) (seeds : List Nat) :
    Nat → List String → List Row
  | _, [] => []
  | tid, c :: rest => mutSeedRows o scale task c tid seeds ++
      mutCatRows o scale task seeds (tid + seeds.length) rest

/-- The mutation rows of a task list (categories fixed to
`MUTATION_CATEGORIES`). -/
def mutTaskRows (o : Oracles) (scale : ℚ) (seeds : List Nat) :
    Nat → List String → List Row
  | _, [] => []
  | tid, t :: rest => mutCatRows o scale t seeds tid MUTATION_CATEGORIES ++
      mutTaskRows o scale seeds
        (tid + MUTATION_CATEGORIES.length * seeds.length) rest

/-- The task × category × seed grid `run_mutations` walks, task-major,
category-major, seed-minor. -/
def mutGrid (config : RunConfig) : List (String × String × Nat) :=
  config.tasks.flatMap (fun t =>
    MUTATION_CATEGORIES.flatMap (fun c =>
      config.seeds.map (fun s => (t, c, s))))

/-- Oracle on which every episode succeeds and every environment reset
yields the instruction `"go"`. -/
def oracleYes : Oracles := ⟨fun _ _ => "go", fun _ _ _ _ => true⟩

/-- Oracle on which every episode fails. -/
def oracleNo : Oracles := ⟨fun _ _ => "go", fun _ _ _ _ => false⟩

/-- A minimal raw configuration: only the three required keys, so every
other `RunConfig` field resolves to its default. -/
def cfgMin : Cfg :=
  [("policy", CVal.s "octo-base"),
   ("policy_setup", CVal.s "widowx_bridge"),
   ("tasks", CVal.sl ["t"])]

/-- A small raw configuration with one task, one seed, one calibration
candidate, and a baseline gate of 0 (so phase `all` always proceeds to
the mutation sweep). -/
def cfgSmall : Cfg :=
  cfgMin ++
  [("seeds", CVal.nl [0]),
   ("baseline_min_sr", CVal.q 0),
   ("calibration_scales", CVal.ql [1]),
   ("calibration_episodes", CVal.n 1)]

/-- A resolved configuration with one task and two seeds (the concrete
grid of the mutation-sweep claim). -/
def rcTwoSeeds : RunConfig :=
  { policy := "octo-base", policy_setup := "widowx_bridge", tasks := ["T"],
    camera := "3rd_view_camera", max_steps := 120, action_scale := 1,
    heuristic_grasp_steps := 0, baseline_min_sr := mkRat 9 10, seeds := [0, 1],
    calibration_scales := [mkRat 1 4, mkRat 1 2, mkRat 3 4, 1], calibration_episodes := 5,
    results_path := "data/results/results.csv",
    log_path := "data/logs/experiment.log",
    locked_config_path := "data/logs/locked_config.json" }

/-- A resolved configuration whose calibration candidates are
`[0.25, 0.5, 0.5, 1.0]` (the concrete tie-break scenario). -/
def rcCalib : RunConfig :=
  { rcTwoSeeds with
    seeds := [0]
    calibration_scales := [mkRat 1 4, mkRat 1 2, mkRat 1 2, 1]
    calibration_episodes := 1 }

/-- A resolved configuration with an empty task list (zero trials). -/
def rcNoTasks : RunConfig := { rcTwoSeeds with tasks := [] }

/-- The capitalised negation used against `negation_positive`. -/
def dontTouch : String := "Don" ++ squote ++ "t touch"

/-- The `RunConfig` that `cfgMin` resolves to: required keys from the
file, every other field at its default. -/
def rcMin : RunConfig :=
  { policy := "octo-base"
    policy_setup := "widowx_bridge"
    tasks := ["t"]
    camera := "3rd_view_camera"
    max_steps := 120
    action_scale := 1
    heuristic_grasp_steps := 0
    baseline_min_sr := mkRat 9 10
    seeds := List.range 10
    calibration_scales := [mkRat 1 4, mkRat 1 2, mkRat 3 4, 1]
    calibration_episodes := 5
    results_path := "data/results/results.csv"
    log_path := "data/logs/experiment.log"
    locked_config_path := "data/logs/locked_config.json" }

/-- The align-phase outcome of `cfgMin` under the always-succeed
oracle. -/
def alignMinYes : ℚ × List Row × ℚ × Cfg :=
  (alignBlock oracleYes rcMin cfgMin).getD (0, [], 0, [])

/-- The align-phase outcome of `cfgMin` under the always-fail oracle
(baseline success rate 0, below the default gate of 0.9). -/
def alignMinNo : ℚ × List Row × ℚ × Cfg :=
  (alignBlock oracleNo rcMin cfgMin).getD (0, [], 0, [])

/-! ### Generic lemmas about the mutation engine -/

theorem pyChoice_mem (seed : Nat) (l : List String) (h : l ≠ []) :
    pyChoice seed l ∈ l := by
  unfold pyChoice
  have hlen : 0 < l.length := List.length_pos.mpr h
  have hlt : seed % l.length < l.length := Nat.mod_lt _ hlen
  rw [List.getD_eq_getElem?_getD, List.getElem?_eq_getElem hlt]
  exact List.getElem_mem hlt

theorem pyChoice_valid (seed : Nat) : ValidRng (pyChoice seed) :=
  fun l h => pyChoice_mem seed l h

theorem lowerFirst_isSome (s : String) (h : s ≠ "") :
    (lowerFirst s).isSome := by
  cases s with
  | mk d =>
    cases d with
    | nil => exact absurd rfl h
    | cons c cs => simp [lowerFirst]

theorem ensureChange_isSome (o m : String) (fb : Option String)
    (h : fb.isSome) : (ensureChange o m fb).isSome := by
  unfold ensureChange
  split
  · exact h
  · rfl

theorem bind_ensure_isSome (t : String) (mo fb : Option String)
    (h1 : mo.isSome) (h2 : fb.isSome) :
    (mo.bind (fun m => ensureChange t m fb)).isSome := by
  obtain ⟨m, hm⟩ := Option.isSome_iff_exists.mp h1
  rw [hm, Option.some_bind]
  exact ensureChange_isSome t m fb h2

theorem mut_synonyms_isSome (text : String) (rng : RngT) (h : text ≠ "") :
    (mut_synonyms text rng).isSome := by
  obtain ⟨lf, hlf⟩ := Option.isSome_iff_exists.mp (lowerFirst_isSome text h)
  simp only [mut_synonyms, hlf, Option.map_some']
  apply bind_ensure_isSome
  · split <;> rfl
  · rfl

theorem mut_passive_voice_isSome (text : String) (rng : RngT) :
    (mut_passive_voice text rng).isSome := by
  unfold mut_passive_voice
  cases h : backslashWMatch (pyStrip text).data with
  | none => rfl
  | some g =>
    obtain ⟨verb, rest⟩ := g
    simp only
    split <;> rfl

theorem mut_spatial_reordering_isSome (text : String) (rng : RngT) :
    (mut_spatial_reordering text rng).isSome := by
  unfold mut_spatial_reordering
  cases h : findSpatial text with
  | none => exact ensureChange_isSome _ _ _ rfl
  | some g =>
    obtain ⟨g0, g1, g2⟩ := g
    exact ensureChange_isSome _ _ _ rfl

theorem mut_formal_informal_isSome (text : String) (rng : RngT)
    (h : text ≠ "") : (mut_formal_informal text rng).isSome := by
  obtain ⟨lf, hlf⟩ := Option.isSome_iff_exists.mp (lowerFirst_isSome text h)
  simp only [mut_formal_informal, hlf, Option.map_some']
  exact ensureChange_isSome _ _ _ rfl

theorem mut_verb_phrasing_isSome (text : String) (rng : RngT)
    (h : text ≠ "") : (mut_verb_phrasing text rng).isSome := by
  unfold mut_verb_phrasing
  cases hf : verbRepl.find? (fun kv => containsSub kv.1 (pyLower text)) with
  | none =>
    obtain ⟨lf, hlf⟩ := Option.isSome_iff_exists.mp (lowerFirst_isSome text h)
    simp [hlf]
  | some kv => exact ensureChange_isSome _ _ _ rfl

theorem mut_object_descriptors_isSome (text : String) (rng : RngT) :
    (mut_object_descriptors text rng).isSome :=
  ensureChange_isSome _ _ _ rfl

theorem mut_directional_language_isSome (text : String) (rng : RngT) :
    (mut_directional_language text rng).isSome :=
  ensureChange_isSome _ _ _ rfl

theorem mut_temporal_modifiers_isSome (text : String) (rng : RngT) :
    (mut_temporal_modifiers text rng).isSome := by
  unfold mut_temporal_modifiers
  split <;> rfl

theorem mut_negation_positive_isSome (text : String) (rng : RngT)
    (h : text ≠ "") : (mut_negation_positive text rng).isSome := by
  unfold mut_negation_positive
  split
  · rfl
  · obtain ⟨lf, hlf⟩ := Option.isSome_iff_exists.mp (lowerFirst_isSome text h)
    simp [hlf]

theorem mut_complexity_variation_isSome (text : String) (rng : RngT)
    (h : text ≠ "") : (mut_complexity_variation text rng).isSome := by
  unfold mut_complexity_variation
  split
  · rfl
  · obtain ⟨lf, hlf⟩ := Option.isSome_iff_exists.mp (lowerFirst_isSome text h)
    simp [hlf]

set_option maxHeartbeats 2000000 in
theorem generate_mutation_rng_isSome (rng : RngT) (i c : String)
    (h : i ≠ "") : (generate_mutation_rng rng i c).isSome := by
  unfold generate_mutation_rng mutatorFor
  split_ifs <;> simp only [Option.isSome_map']
  · exact mut_synonyms_isSome i rng h
  · exact mut_passive_voice_isSome i rng
  · exact mut_spatial_reordering_isSome i rng
  · exact mut_formal_informal_isSome i rng h
  · exact mut_verb_phrasing_isSome i rng h
  · exact mut_object_descriptors_isSome i rng
  · exact mut_directional_language_isSome i rng
  · exact mut_temporal_modifiers_isSome i rng
  · exact mut_negation_positive_isSome i rng h
  · exact mut_complexity_variation_isSome i rng h
  · rfl

/-! ### Claims about the mutation engine -/

/-- Claim C2 (code bug): the spec says `passive_voice` rewrites
`"<verb> <rest>"` into `"<rest> should be <verb>ed"`, but `_passive_voice`
spells its pattern `r"^(\\w+)(.*)$"` — in a raw string this matches only
text beginning with a literal backslash followed by `w`s — so on an
ordinary instruction the match fails and the function appends
`" should be done."` instead: `generate_mutation("pick up the cube",
"passive_voice", 0)` returns `"pick up the cube should be done."`, not
`"up the cube should be picked."`. -/
theorem claim_c2_passive_voice_failing_input :
    generate_mutation "pick up the cube" "passive_voice" 0 =
      some "pick up the cube should be done." := by decide

/-- Claim C6 (confirmed): `generate_mutation` is deterministic — the
random source is rebuilt from the seed on every call and no process-wide
state exists, so the embedding is a pure function of
`(instruction, category, seed)` and equal argument triples give equal
outputs. -/
theorem claim_c6_deterministic (instruction category : String)
    (seed1 seed2 : Nat) (h : seed1 = seed2) :
    generate_mutation instruction category seed1 =
      generate_mutation instruction category seed2 := by rw [h]

/-- Witness for C6, at the spec's concrete scenario (instruction
`"pick up the red block and place it in the basket"`, category
`synonyms`, seed 7). -/
theorem claim_c6_deterministic_witness :
    generate_mutation "pick up the red block and place it in the basket"
        "synonyms" 7 =
      generate_mutation "pick up the red block and place it in the basket"
        "synonyms" 7 :=
  claim_c6_deterministic
    "pick up the red block and place it in the basket" "synonyms" 7 7 rfl

/-- Counterexample to claim C1: `temporal_modifiers` triggers because
`"now"` is a substring of `"know"`, its word-boundary substitution then
changes nothing, and no fallback runs — the mutation returns the input
unchanged, contradicting the claimed ensure-change guarantee. -/
theorem claim_c1_counterexample :
    generate_mutation "know" "temporal_modifiers" 0 = some "know" := by
  decide

/-- Claim C1 as amended: every defined category changes some instruction
(the instruction `"go"` works for all ten), but the ensure-change
guarantee fails on the primary paths that trigger on a substring or a
lowercased copy and then substitute with stricter matching:
`temporal_modifiers` returns any instruction containing `"now"` only
inside another word (e.g. `"know"`) unchanged, and `negation_positive`
returns any instruction containing `"don't"`/`"do not"` only with
different capitalisation (e.g. `"Don't touch"`) unchanged. -/
theorem claim_c1_amended :
    (∀ seed : Nat, ∀ c ∈ MUTATION_CATEGORIES,
      ∃ i t, generate_mutation i c seed = some t ∧ t ≠ i)
    ∧ (∀ seed : Nat,
        generate_mutation "know" "temporal_modifiers" seed = some "know")
    ∧ (∀ seed : Nat,
        generate_mutation dontTouch "negation_positive" seed =
          some dontTouch) := by
  refine ⟨?_, fun _ => rfl, fun _ => rfl⟩
  intro seed c hc
  simp only [MUTATION_CATEGORIES, List.mem_cons, List.not_mem_nil,
    or_false] at hc
  rcases hc with rfl | rfl | rfl | rfl | rfl | rfl | rfl | rfl | rfl | rfl
  · exact ⟨"go", _, rfl, by decide⟩
  · exact ⟨"go", _, rfl, by decide⟩
  · exact ⟨"go", _, rfl, by decide⟩
  · -- formal_informal: the fallback draws from two candidates
    have E : generate_mutation "go" "formal_informal" seed =
        some (finalizeMut "go" (pyChoice seed ["Please go", "Hey, go"])) :=
      rfl
    have hm : pyChoice seed ["Please go", "Hey, go"] ∈
        ["Please go", "Hey, go"] := pyChoice_mem seed _ (by decide)
    rcases List.mem_cons.mp hm with hv | hv
    · rw [hv] at E; exact ⟨"go", _, E, by decide⟩
    · rw [List.mem_singleton.mp hv] at E; exact ⟨"go", _, E, by decide⟩
  · exact ⟨"go", _, rfl, by decide⟩
  · exact ⟨"go", _, rfl, by decide⟩
  · exact ⟨"go", _, rfl, by decide⟩
  · exact ⟨"go", _, rfl, by decide⟩
  · -- negation_positive: the reminder lead draws from three candidates
    have E : generate_mutation "go" "negation_positive" seed =
        some (finalizeMut "go" (pyChoice seed negLeads ++ " " ++ "go")) :=
      rfl
    have hm : pyChoice seed negLeads ∈ negLeads :=
      pyChoice_mem seed _ (by decide)
    simp only [negLeads, List.mem_cons, List.not_mem_nil, or_false] at hm
    simp only [negLeads] at E
    rcases hm with hv | hv | hv <;>
      · rw [hv] at E; exact ⟨"go", _, E, by decide⟩
  · exact ⟨"go", _, rfl, by decide⟩

/-- Witness for the amended C1, at category `synonyms` and seed 0. -/
theorem claim_c1_amended_witness :
    ∃ i t, generate_mutation i "synonyms" 0 = some t ∧ t ≠ i :=
  claim_c1_amended.1 0 "synonyms" (by decide)

/-- Claim C10 (confirmed): on any non-empty instruction every category
(and any unknown category) returns a value, while on the empty
instruction the categories whose fallback indexes the first character —
among them `synonyms`, `negation_positive` and `complexity_variation` —
raise `IndexError` (modelled as `none`). -/
theorem claim_c10_empty_instruction_safety :
    (∀ (instruction category : String) (seed : Nat), instruction ≠ "" →
      (generate_mutation instruction category seed).isSome = true)
    ∧ generate_mutation "" "synonyms" 0 = none
    ∧ generate_mutation "" "negation_positive" 0 = none
    ∧ generate_mutation "" "complexity_variation" 0 = none := by
  refine ⟨fun i c s hi => ?_, by decide, by decide, by decide⟩
  exact generate_mutation_rng_isSome (pyChoice s) i c hi

/-- Witness for C10: the non-empty instruction `"go"` under
`synonyms`, seed 0. -/
theorem claim_c10_empty_instruction_safety_witness :
    "go" ≠ "" ∧ (generate_mutation "go" "synonyms" 0).isSome = true :=
  ⟨by decide, claim_c10_empty_instruction_safety.1 "go" "synonyms" 0
    (by decide)⟩

/-! ### Lemmas about the configuration dict -/

theorem find_map_set (k : String) (v : CVal) :
    ∀ d : Cfg, d.any (fun kv => kv.1 = k) = true →
    (d.map (fun kv => if kv.1 = k then (k, v) else kv)).find?
      (fun kv => kv.1 = k) = some (k, v) := by
  intro d
  induction d with
  | nil => simp
  | cons kv d ih =>
    intro h
    by_cases hk : kv.1 = k
    · rw [List.map_cons, if_pos hk, List.find?_cons_of_pos _ (by simp)]
    · rw [List.map_cons, if_neg hk, List.find?_cons_of_neg _ (by simp [hk])]
      apply ih
      simp only [List.any_cons, Bool.or_eq_true, decide_eq_true_eq] at h
      rcases h with h | h
      · exact absurd h hk
      · exact h

theorem find_append_set (k : String) (v : CVal) :
    ∀ d : Cfg, d.any (fun kv => kv.1 = k) = false →
    (d ++ [(k, v)]).find? (fun kv => kv.1 = k) = some (k, v) := by
  intro d
  induction d with
  | nil => simp [List.find?]
  | cons kv d ih =>
    intro h
    simp only [List.any_cons, Bool.or_eq_false_iff, decide_eq_false_iff_not]
      at h
    rw [List.cons_append, List.find?_cons_of_neg _ (by simp [h.1])]
    exact ih h.2

theorem cfgLookup_dictSet_self (d : Cfg) (k : String) (v : CVal) :
    cfgLookup (dictSet d k v) k = some v := by
  unfold cfgLookup dictSet
  by_cases hany : d.any (fun kv => kv.1 = k) = true
  · rw [if_pos hany, find_map_set k v d hany]; rfl
  · rw [if_neg hany, find_append_set k v d ((Bool.not_eq_true _) ▸ hany)]; rfl

theorem find_map_set_ne (k k' : String) (v : CVal) (hne : k' ≠ k) :
    ∀ d : Cfg,
    (d.map (fun kv => if kv.1 = k then (k, v) else kv)).find?
      (fun kv => kv.1 = k') = d.find? (fun kv => kv.1 = k') := by
  intro d
  induction d with
  | nil => simp
  | cons kv d ih =>
    by_cases hk : kv.1 = k
    · rw [List.map_cons, if_pos hk,
        List.find?_cons_of_neg _ (by simp [Ne.symm hne]),
        List.find?_cons_of_neg _ (by simp [hk, Ne.symm hne])]
      exact ih
    · rw [List.map_cons, if_neg hk]
      by_cases hk' : kv.1 = k'
      · rw [List.find?_cons_of_pos _ (by simp [hk']),
          List.find?_cons_of_pos _ (by simp [hk'])]
      · rw [List.find?_cons_of_neg _ (by simp [hk']),
          List.find?_cons_of_neg _ (by simp [hk'])]
        exact ih

theorem cfgLookup_dictSet_ne (d : Cfg) (k k' : String) (v : CVal)
    (hne : k' ≠ k) : cfgLookup (dictSet d k v) k' = cfgLookup d k' := by
  unfold cfgLookup dictSet
  split
  · rw [find_map_set_ne k k' v hne d]
  · rw [List.find?_append,
      List.find?_cons_of_neg _ (by simp [Ne.symm hne]), List.find?_nil,
      Option.or_none]

theorem cfgLookup_dictSet_isSome (d : Cfg) (k k' : String) (v : CVal)
    (h : (cfgLookup d k').isSome) :
    (cfgLookup (dictSet d k v) k').isSome := by
  by_cases hk : k' = k
  · subst hk; rw [cfgLookup_dictSet_self]; rfl
  · rw [cfgLookup_dictSet_ne d k k' v hk]; exact h

theorem cfgLookup_dictSet_isSome_inv (d : Cfg) (k k' : String) (v : CVal)
    (h : (cfgLookup (dictSet d k v) k').isSome) :
    k' = k ∨ (cfgLookup d k').isSome := by
  by_cases hk : k' = k
  · exact Or.inl hk
  · right; rw [cfgLookup_dictSet_ne d k k' v hk] at h; exact h

/-! ### Characterizing `run_baseline` -/

theorem baseline_inner (o : Oracles) (scale : ℚ) (task : String)
    (seeds : List Nat) :
    ∀ (rows : List Row) (tid tot suc : Nat),
    seeds.foldl (baseStep o scale task) (rows, tid, tot, suc) =
      (rows ++ seedRows o scale task tid seeds,
       tid + seeds.length, tot + seeds.length,
       suc + seeds.countP (fun s => baseSucc o scale (task, s))) := by
  induction seeds with
  | nil => intro rows tid tot suc; simp [seedRows]
  | cons s rest ih =>
    intro rows tid tot suc
    rw [List.foldl_cons]
    show rest.foldl (baseStep o scale task)
      (rows ++ [baseRow o scale task s tid], tid + 1, tot + 1,
       suc + (if baseSucc o scale (task, s) then 1 else 0)) = _
    rw [ih]
    simp only [seedRows, List.countP_cons, List.length_cons,
      List.append_assoc, List.singleton_append, Prod.mk.injEq]
    refine ⟨trivial, by omega, by omega, by omega⟩

theorem baseline_outer (o : Oracles) (scale : ℚ) (seeds : List Nat) :
    ∀ (tasks : List String) (rows : List Row) (tid tot suc : Nat),
    tasks.foldl (fun st task => seeds.foldl (baseStep o scale task) st)
      (rows, tid, tot, suc) =
      (rows ++ taskRows o scale seeds tid tasks,
       tid + tasks.length * seeds.length,
       tot + tasks.length * seeds.length,
       suc + (tasks.flatMap (fun t =>
         seeds.map (fun s => (t, s)))).countP (baseSucc o scale)) := by
  intro tasks
  induction tasks with
  | nil => intro rows tid tot suc; simp [taskRows]
  | cons t rest ih =>
    intro rows tid tot suc
    rw [List.foldl_cons, baseline_inner, ih]
    simp only [taskRows, List.flatMap_cons, List.countP_append,
      List.countP_map, List.length_cons, List.append_assoc, Prod.mk.injEq]
    refine ⟨trivial, by ring, by ring, ?_⟩
    have : seeds.countP (fun s => baseSucc o scale (t, s)) =
        List.countP (baseSucc o scale ∘ fun s => (t, s)) seeds := rfl
    omega

theorem run_baseline_eq (o : Oracles) (config : RunConfig) (scale : ℚ) :
    run_baseline o config scale =
      (taskRows o scale config.seeds 0 config.tasks,
       mkRat ((baseGrid config).countP (baseSucc o scale))
         (pyMaxOneNat (config.tasks.length * config.seeds.length))) := by
  unfold run_baseline
  rw [baseline_outer]
  simp [baseGrid]

theorem flatMap_const_length {α β : Type} (f : α → List β) (n : Nat)
    (l : List α) (h : ∀ a, (f a).length = n) :
    (l.flatMap f).length = l.length * n := by
  induction l with
  | nil => simp
  | cons a rest ih =>
    simp only [List.flatMap_cons, List.length_append, ih, h,
      List.length_cons]
    ring

theorem baseGrid_length (config : RunConfig) :
    (baseGrid config).length =
      config.tasks.length * config.seeds.length := by
  unfold baseGrid
  exact flatMap_const_length _ _ _ (fun t => by simp)

theorem seedRows_map_tid (o : Oracles) (scale : ℚ) (task : String) :
    ∀ (seeds : List Nat) (tid : Nat),
    (seedRows o scale task tid seeds).map Row.trial_id =
      List.range' tid seeds.length := by
  intro seeds
  induction seeds with
  | nil => intro tid; simp [seedRows]
  | cons s rest ih =>
    intro tid
    simp only [seedRows, List.map_cons, List.length_cons,
      List.range'_succ, ih]
    rfl

theorem taskRows_map_tid (o : Oracles) (scale : ℚ) (seeds : List Nat) :
    ∀ (tasks : List String) (tid : Nat),
    (taskRows o scale seeds tid tasks).map Row.trial_id =
      List.range' tid (tasks.length * seeds.length) := by
  intro tasks
  induction tasks with
  | nil => intro tid; simp [taskRows]
  | cons t rest ih =>
    intro tid
    simp only [taskRows, List.map_append, seedRows_map_tid, ih,
      List.length_cons]
    rw [show tid + seeds.length = tid + 1 * seeds.length by ring,
      List.range'_append]
    congr 1
    ring

theorem run_baseline_ids (o : Oracles) (config : RunConfig) (scale : ℚ) :
    (run_baseline o config scale).1.map Row.trial_id =
      List.range (config.tasks.length * config.seeds.length) := by
  rw [run_baseline_eq, List.range_eq_range']
  exact taskRows_map_tid o scale config.seeds config.tasks 0

/-! ### Characterizing `run_mutations` -/

theorem mut_inner (o : Oracles) (scale : ℚ) (task category : String) :
    ∀ (seeds : List Nat) (rows : List Row) (tid : Nat)
      (out : List Row × Nat),
    seeds.foldlM (mutStep o scale task category) (rows, tid) = some out →
    out = (rows ++ mutSeedRows o scale task category tid seeds,
           tid + seeds.length) := by
  intro seeds
  induction seeds with
  | nil =>
    intro rows tid out h
    simp only [List.foldlM_nil] at h
    cases h
    simp [mutSeedRows]
  | cons s rest ih =>
    intro rows tid out h
    rw [List.foldlM_cons] at h
    cases hg : generate_mutation (o.instrOf task s) category s with
    | none => rw [mutStep, hg] at h; cases h
    | some m =>
      rw [mutStep, hg] at h
      simp only [Option.map_some', Option.some_bind] at h
      rw [ih _ _ _ h]
      simp only [mutSeedRows, mutRowD, hg, Option.getD_some,
        List.append_assoc, List.singleton_append, List.length_cons,
        Prod.mk.injEq]
      exact ⟨trivial, by omega⟩

theorem mut_mid (o : Oracles) (scale : ℚ) (task : String)
    (seeds : List Nat) :
    ∀ (cats : List String) (rows : List Row) (tid : Nat)
      (out : List Row × Nat),
    cats.foldlM (fun st category =>
      seeds.foldlM (mutStep o scale task category) st) (rows, tid) =
        some out →
    out = (rows ++ mutCatRows o scale task seeds tid cats,
           tid + cats.length * seeds.length) := by
  intro cats
  induction cats with
  | nil =>
    intro rows tid out h
    simp only [List.foldlM_nil] at h
    cases h
    simp [mutCatRows]
  | cons c rest ih =>
    intro rows tid out h
    rw [List.foldlM_cons] at h
    rcases Option.bind_eq_some.mp h with ⟨st', hst', hrest⟩
    rw [mut_inner o scale task c seeds rows tid st' hst'] at hrest
    rw [ih _ _ _ hrest]
    simp only [mutCatRows, List.append_assoc, List.length_cons,
      Prod.mk.injEq]
    exact ⟨trivial, by ring⟩

theorem mut_outer (o : Oracles) (scale : ℚ) (seeds : List Nat) :
    ∀ (tasks : List String) (rows : List Row) (tid : Nat)
      (out : List Row × Nat),
    tasks.foldlM (fun st task => MUTATION_CATEGORIES.foldlM
      (fun st category =>
        seeds.foldlM (mutStep o scale task category) st) st)
      (rows, tid) = some out →
    out = (rows ++ mutTaskRows o scale seeds tid tasks,
           tid + tasks.length * (MUTATION_CATEGORIES.length * seeds.length))
    := by
  intro tasks
  induction tasks with
  | nil =>
    intro rows tid out h
    simp only [List.foldlM_nil] at h
    cases h
    simp [mutTaskRows]
  | cons t rest ih =>
    intro rows tid out h
    rw [List.foldlM_cons] at h
    rcases Option.bind_eq_some.mp h with ⟨st', hst', hrest⟩
    rw [mut_mid o scale t seeds MUTATION_CATEGORIES rows tid st' hst']
      at hrest
    rw [ih _ _ _ hrest]
    simp only [mutTaskRows, List.append_assoc, List.length_cons,
      Prod.mk.injEq]
    exact ⟨trivial, by ring⟩

theorem run_mutations_eq (o : Oracles) (config : RunConfig) (scale : ℚ)
    (rows : List Row) (h : run_mutations o config scale = some rows) :
    rows = mutTaskRows o scale config.seeds 0 config.tasks := by
  unfold run_mutations at h
  rcases Option.map_eq_some'.mp h with ⟨out, hout, hrows⟩
  rw [mut_outer o scale config.seeds config.tasks [] 0 out hout] at hrows
  rw [← hrows]
  simp

theorem mutSeedRows_map_tid (o : Oracles) (scale : ℚ) (task c : String) :
    ∀ (seeds : List Nat) (tid : Nat),
    (mutSeedRows o scale task c tid seeds).map Row.trial_id =
      List.range' tid seeds.length := by
  intro seeds
  induction seeds with
  | nil => intro tid; simp [mutSeedRows]
  | cons s rest ih =>
    intro tid
    simp only [mutSeedRows, List.map_cons, List.length_cons,
      List.range'_succ, ih]
    rfl

theorem mutCatRows_map_tid (o : Oracles) (scale : ℚ) (task : String)
    (seeds : List Nat) :
    ∀ (cats : List String) (tid : Nat),
    (mutCatRows o scale task seeds tid cats).map Row.trial_id =
      List.range' tid (cats.length * seeds.length) := by
  intro cats
  induction cats with
  | nil => intro tid; simp [mutCatRows]
  | cons c rest ih =>
    intro tid
    simp only [mutCatRows, List.map_append, mutSeedRows_map_tid, ih,
      List.length_cons]
    rw [show tid + seeds.length = tid + 1 * seeds.length by ring,
      List.range'_append]
    congr 1
    ring

theorem mutTaskRows_map_tid (o : Oracles) (scale : ℚ) (seeds : List Nat) :
    ∀ (tasks : List String) (tid : Nat),
    (mutTaskRows o scale seeds tid tasks).map Row.trial_id =
      List.range' tid
        (tasks.length * (MUTATION_CATEGORIES.length * seeds.length)) := by
  intro tasks
  induction tasks with
  | nil => intro tid; simp [mutTaskRows]
  | cons t rest ih =>
    intro tid
    simp only [mutTaskRows, List.map_append, mutCatRows_map_tid, ih,
      List.length_cons]
    rw [show tid + MUTATION_CATEGORIES.length * seeds.length =
        tid + 1 * (MUTATION_CATEGORIES.length * seeds.length) by ring,
      List.range'_append]
    congr 1
    ring

theorem mutSeedRows_map_key (o : Oracles) (scale : ℚ) (task c : String) :
    ∀ (seeds : List Nat) (tid : Nat),
    (mutSeedRows o scale task c tid seeds).map
      (fun r => (r.task, r.mutation_category, r.seed)) =
      seeds.map (fun s => (task, c, s)) := by
  intro seeds
  induction seeds with
  | nil => intro tid; simp [mutSeedRows]
  | cons s rest ih =>
    intro tid
    simp only [mutSeedRows, List.map_cons, ih]
    rfl

theorem mutCatRows_map_key (o : Oracles) (scale : ℚ) (task : String)
    (seeds : List Nat) :
    ∀ (cats : List String) (tid : Nat),
    (mutCatRows o scale task seeds tid cats).map
      (fun r => (r.task, r.mutation_category, r.seed)) =
      cats.flatMap (fun c => seeds.map (fun s => (task, c, s))) := by
  intro cats
  induction cats with
  | nil => intro tid; simp [mutCatRows]
  | cons c rest ih =>
    intro tid
    simp only [mutCatRows, List.map_append, mutSeedRows_map_key, ih,
      List.flatMap_cons]

theorem mutTaskRows_map_key (o : Oracles) (scale : ℚ) (seeds : List Nat) :
    ∀ (tasks : List String) (tid : Nat),
    (mutTaskRows o scale seeds tid tasks).map
      (fun r => (r.task, r.mutation_category, r.seed)) =
      tasks.flatMap (fun t => MUTATION_CATEGORIES.flatMap
        (fun c => seeds.map (fun s => (t, c, s)))) := by
  intro tasks
  induction tasks with
  | nil => intro tid; simp [mutTaskRows]
  | cons t rest ih =>
    intro tid
    simp only [mutTaskRows, List.map_append, mutCatRows_map_key, ih,
      List.flatMap_cons]

theorem mutGrid_length (config : RunConfig) :
    (mutGrid config).length = config.tasks.length *
      (MUTATION_CATEGORIES.length * config.seeds.length) := by
  unfold mutGrid
  exact flatMap_const_length _ _ _
    (fun t => flatMap_const_length _ _ _ (fun c => by simp))

/-! ### Claims about the experiment controller loops -/

/-- Counterexample to claim C3: in a phase-`all` run on one task and one
seed with a passing gate, the ledger receives the baseline row with
`trial_id` 0 and then the first mutation row again with `trial_id` 0 —
two rows of one process run and one ledger file share a trial id,
because `run_mutations` restarts its counter at 0. -/
theorem claim_c3_counterexample :
    (mainRun oracleYes cfgSmall Phase.all).map
      (fun r => (r.2.map Row.trial_id).take 2) = some [0, 0] := by decide

/-- Claim C3 as amended: within each phase the trial ids are
`0, 1, 2, …` — strictly increasing and pairwise distinct across the rows
that phase appends — but `run_baseline` and `run_mutations` each restart
the counter at 0, so a run executing both phases reuses ids across the
two row blocks. -/
theorem claim_c3_amended (o : Oracles) (config : RunConfig) (scale : ℚ) :
    (run_baseline o config scale).1.map Row.trial_id =
      List.range (config.tasks.length * config.seeds.length)
    ∧ (∀ rows, run_mutations o config scale = some rows →
        rows.map Row.trial_id = List.range (config.tasks.length *
          (MUTATION_CATEGORIES.length * config.seeds.length))) := by
  constructor
  · exact run_baseline_ids o config scale
  · intro rows h
    rw [run_mutations_eq o config scale rows h, List.range_eq_range']
    exact mutTaskRows_map_tid o scale config.seeds config.tasks 0

/-- Witness for the amended C3: one task, two seeds, the always-succeed
oracle; the mutation sweep numbers its 20 rows `0, …, 19`. -/
theorem claim_c3_amended_witness :
    ((run_mutations oracleYes rcTwoSeeds 1).getD []).map Row.trial_id =
      List.range (rcTwoSeeds.tasks.length *
        (MUTATION_CATEGORIES.length * rcTwoSeeds.seeds.length)) :=
  (claim_c3_amended oracleYes rcTwoSeeds 1).2
    ((run_mutations oracleYes rcTwoSeeds 1).getD []) (by decide)

/-- Claim C8 (confirmed): `run_baseline` returns the fraction of
successful trials over the task × seed grid it walks (task-major), as
the exact ratio `successes / max(1, total)`, and with an empty task or
seed list the rate is 0 with no division-by-zero error. -/
theorem claim_c8_baseline_rate (o : Oracles) (config : RunConfig)
    (scale : ℚ) :
    (run_baseline o config scale).2 =
      mkRat ((baseGrid config).countP (baseSucc o scale))
        (pyMaxOneNat (baseGrid config).length)
    ∧ (config.tasks = [] ∨ config.seeds = [] →
        (run_baseline o config scale).2 = 0) := by
  constructor
  · rw [run_baseline_eq, baseGrid_length]
  · intro h
    have hg : baseGrid config = [] := by
      rcases h with h | h <;> simp [baseGrid, h]
    rw [run_baseline_eq]
    have hc : (baseGrid config).countP (baseSucc o scale) = 0 := by
      rw [hg]; rfl
    simp [hc]

/-- Witness for C8: with no tasks configured, zero trials run and the
returned rate is 0. -/
theorem claim_c8_baseline_rate_witness :
    (run_baseline oracleYes rcNoTasks 1).2 = 0 :=
  (claim_c8_baseline_rate oracleYes rcNoTasks 1).2 (Or.inl rfl)

/-- Claim C9 (confirmed): `run_mutations` appends exactly one row per
point of the task × category × seed grid, in task-major,
category-major (fixed ten-category order), seed-minor order; every row's
category is drawn from the fixed list; and on `tasks=["T"]`,
`seeds=[0,1]` it appends exactly 20 rows. -/
theorem claim_c9_mutation_grid (o : Oracles) (config : RunConfig)
    (scale : ℚ) (rows : List Row)
    (h : run_mutations o config scale = some rows) :
    rows.map (fun r => (r.task, r.mutation_category, r.seed)) =
      mutGrid config
    ∧ rows.length = config.tasks.length *
        (MUTATION_CATEGORIES.length * config.seeds.length)
    ∧ (∀ r ∈ rows, r.mutation_category ∈ MUTATION_CATEGORIES)
    ∧ (run_mutations oracleYes rcTwoSeeds 1).map List.length = some 20
    := by
  have he := run_mutations_eq o config scale rows h
  subst he
  have hkey := mutTaskRows_map_key o scale config.seeds config.tasks 0
  refine ⟨hkey, ?_, ?_, by decide⟩
  · have hlen := congrArg List.length hkey
    rw [List.length_map] at hlen
    rw [hlen, ← mutGrid_length]
    rfl
  · intro r hr
    have hproj : (r.task, r.mutation_category, r.seed) ∈ mutGrid config := by
      rw [mutGrid, ← hkey]
      exact List.mem_map_of_mem _ hr
    rcases List.mem_flatMap.mp hproj with ⟨t, _, hin⟩
    rcases List.mem_flatMap.mp hin with ⟨c, hc, hin2⟩
    rcases List.mem_map.mp hin2 with ⟨s2, _, heq⟩
    rw [Prod.mk.injEq, Prod.mk.injEq] at heq
    rw [← heq.2.1]
    exact hc

/-- Witness for C9: the concrete one-task, two-seed grid yields rows
whose key projection is exactly the grid. -/
theorem claim_c9_mutation_grid_witness :
    ((run_mutations oracleYes rcTwoSeeds 1).getD []).map
      (fun r => (r.task, r.mutation_category, r.seed)) =
      mutGrid rcTwoSeeds :=
  (claim_c9_mutation_grid oracleYes rcTwoSeeds 1
    ((run_mutations oracleYes rcTwoSeeds 1).getD []) (by decide)).1

/-! ### Characterizing `calibrate_action_scale` -/

theorem calibSR_nonneg (o : Oracles) (task : String) (config : RunConfig)
    (scale : ℚ) : 0 ≤ calibSR o task config scale := by
  unfold calibSR
  exact Rat.mkRat_nonneg (Int.ofNat_nonneg _) _

theorem calib_fold_const (o : Oracles) (task : String) (config : RunConfig) :
    ∀ (l : List ℚ) (b0 r0 : ℚ),
    (∀ x ∈ l, calibSR o task config x ≤ r0) →
    l.foldl (calibStep o task config) (b0, r0) = (b0, r0) := by
  intro l
  induction l with
  | nil => intro b0 r0 _; rfl
  | cons a rest ih =>
    intro b0 r0 h
    rw [List.foldl_cons]
    have ha : ¬ (b0, r0).2 < calibSR o task config a :=
      not_lt.mpr (h a (List.mem_cons_self a rest))
    simp only [calibStep, if_neg ha]
    exact ih b0 r0 (fun x hx => h x (List.mem_cons_of_mem a hx))

theorem calib_fold_first (o : Oracles) (task : String) (config : RunConfig) :
    ∀ (l : List ℚ) (b0 r0 : ℚ),
    (∃ x ∈ l, r0 < calibSR o task config x) →
    ∃ pre x suf, l = pre ++ x :: suf
      ∧ l.foldl (calibStep o task config) (b0, r0) =
          (x, calibSR o task config x)
      ∧ (∀ y ∈ pre, calibSR o task config y < calibSR o task config x ∨
          calibSR o task config y ≤ r0)
      ∧ (∀ y ∈ l, calibSR o task config y ≤ calibSR o task config x) := by
  intro l
  induction l with
  | nil =>
    intro b0 r0 hx
    rcases hx with ⟨x, hx, _⟩
    exact absurd hx (List.not_mem_nil x)
  | cons a rest ih =>
    intro b0 r0 hx
    by_cases ha : r0 < calibSR o task config a
    · have hstep : (a :: rest).foldl (calibStep o task config) (b0, r0) =
          rest.foldl (calibStep o task config)
            (a, calibSR o task config a) := by
        rw [List.foldl_cons]
        simp only [calibStep]
        rw [if_pos ha]
      by_cases hrest : ∃ y ∈ rest,
          calibSR o task config a < calibSR o task config y
      · obtain ⟨pre, x, suf, heq, hfold, hpre, hall⟩ :=
          ih a (calibSR o task config a) hrest
        obtain ⟨y0, hy0, hy0lt⟩ := hrest
        have hax : calibSR o task config a < calibSR o task config x :=
          lt_of_lt_of_le hy0lt (hall y0 hy0)
        refine ⟨a :: pre, x, suf, by rw [List.cons_append, heq],
          by rw [hstep, hfold], ?_, ?_⟩
        · intro y hy
          rcases List.mem_cons.mp hy with rfl | hy
          · exact Or.inl hax
          · rcases hpre y hy with h1 | h1
            · exact Or.inl h1
            · exact Or.inl (lt_of_le_of_lt h1 hax)
        · intro y hy
          rcases List.mem_cons.mp hy with rfl | hy
          · exact le_of_lt hax
          · exact hall y hy
      · push_neg at hrest
        have hconst := calib_fold_const o task config rest a
          (calibSR o task config a) hrest
        refine ⟨[], a, rest, rfl, by rw [hstep, hconst], by simp, ?_⟩
        intro y hy
        rcases List.mem_cons.mp hy with rfl | hy
        · exact le_refl _
        · exact hrest y hy
    · have hstep : (a :: rest).foldl (calibStep o task config) (b0, r0) =
          rest.foldl (calibStep o task config) (b0, r0) := by
        rw [List.foldl_cons]
        simp only [calibStep]
        rw [if_neg ha]
      obtain ⟨x0, hx0mem, hx0⟩ := hx
      have hx0mem' : x0 ∈ rest := by
        rcases List.mem_cons.mp hx0mem with rfl | h
        · exact absurd hx0 ha
        · exact h
      obtain ⟨pre, x, suf, heq, hfold, hpre, hall⟩ :=
        ih b0 r0 ⟨x0, hx0mem', hx0⟩
      have hr0x : r0 < calibSR o task config x :=
        lt_of_lt_of_le hx0 (hall x0 hx0mem')
      refine ⟨a :: pre, x, suf, by rw [List.cons_append, heq],
        by rw [hstep, hfold], ?_, ?_⟩
      · intro y hy
        rcases List.mem_cons.mp hy with rfl | hy
        · exact Or.inr (not_lt.mp ha)
        · exact hpre y hy
      · intro y hy
        rcases List.mem_cons.mp hy with rfl | hy
        · exact le_trans (not_lt.mp ha) (le_of_lt hr0x)
        · exact hall y hy

/-- Claim C7 (confirmed): calibration returns a candidate of strictly
highest empirical success rate, ties resolved to the candidate seen
first in configured order (everything strictly before the returned
candidate scores strictly less, and nothing scores more); when all
candidates score equally the first is returned; and concretely
`calibration_scales = [0.25, 0.5, 0.5, 1.0]` with all-equal rates
selects `0.25`. -/
theorem claim_c7_calibration_tie_break (o : Oracles) (task : String)
    (config : RunConfig) (r : ℚ)
    (hne : config.calibration_scales ≠ [])
    (hcal : calibrate_action_scale o task config = some r) :
    (∃ pre suf, config.calibration_scales = pre ++ r :: suf
      ∧ (∀ y ∈ pre, calibSR o task config y < calibSR o task config r)
      ∧ (∀ y ∈ config.calibration_scales,
          calibSR o task config y ≤ calibSR o task config r))
    ∧ ((∀ y ∈ config.calibration_scales, calibSR o task config y =
        calibSR o task config (config.calibration_scales.headD 0)) →
        r = config.calibration_scales.headD 0)
    ∧ calibrate_action_scale oracleYes "t" rcCalib = some (mkRat 1 4)
    := by
  have hfold : (config.calibration_scales.foldl (calibStep o task config)
      (config.action_scale, (-1 : ℚ))).1 = r := by
    unfold calibrate_action_scale at hcal
    split at hcal
    · cases hcal
    · exact Option.some.inj hcal
  have hx : ∃ x ∈ config.calibration_scales,
      (-1 : ℚ) < calibSR o task config x :=
    ⟨config.calibration_scales.head hne, List.head_mem hne,
      lt_of_lt_of_le (by norm_num) (calibSR_nonneg o task config _)⟩
  obtain ⟨pre, x, suf, heq, hfoldeq, hpre, hall⟩ :=
    calib_fold_first o task config config.calibration_scales
      config.action_scale (-1) hx
  have hxr : x = r := by
    rw [hfoldeq] at hfold
    exact hfold
  subst hxr
  have hpre' : ∀ y ∈ pre, calibSR o task config y < calibSR o task config x
    := by
    intro y hy
    rcases hpre y hy with h1 | h1
    · exact h1
    · exact absurd (le_trans (calibSR_nonneg o task config y) h1)
        (by norm_num)
  refine ⟨⟨pre, suf, heq, hpre', hall⟩, ?_, by decide⟩
  intro hEq
  cases pre with
  | nil =>
    rw [heq]
    rfl
  | cons p pre' =>
    have hp : p ∈ config.calibration_scales := by
      rw [heq]; exact List.mem_cons_self p _
    have hxmem : x ∈ config.calibration_scales := by
      rw [heq]
      exact List.mem_append_right _ (List.mem_cons_self x suf)
    have h1 := hpre' p (List.mem_cons_self p pre')
    rw [hEq p hp, hEq x hxmem] at h1
    exact absurd h1 (lt_irrefl _)

/-- Witness for C7, at the concrete tie-break scenario: candidates
`[0.25, 0.5, 0.5, 1.0]`, every episode succeeding (so all rates equal),
first candidate `0.25` selected. -/
theorem claim_c7_calibration_tie_break_witness :
    (mkRat 1 4) = rcCalib.calibration_scales.headD 0 :=
  (claim_c7_calibration_tie_break oracleYes "t" rcCalib (mkRat 1 4)
    (by decide) (by decide)).2.1 (by decide)

/-! ### Claims about the align phase and the gate -/

/-- Counterexample to claim C4: with a raw configuration carrying only
the required keys, the align phase writes a locked file with no
`"camera"` key at all, although the resolved `RunConfig` of the same run
has `camera = "3rd_view_camera"` — the locked file is a copy of the raw
dict, not of the resolved configuration, so defaulted fields are
missing. -/
theorem claim_c4_counterexample :
    ((mainRun oracleYes cfgMin Phase.align).map
      (fun r => r.1.map (fun d => (cfgLookup d "camera").isSome))) =
        some [false]
    ∧ (toRunConfig cfgMin).map (fun c => c.camera) =
        some "3rd_view_camera" := by decide

/-- Claim C4 as amended: at the end of the align phase the locked
configuration is written exactly once; it contains every key of the raw
loaded configuration, plus `action_scale` set to the calibration result,
plus `baseline_sr` equal to the value `run_baseline` returned in that
same run — and nothing else: `RunConfig` fields that took default values
because their keys were absent from the raw configuration do not appear.
-/
theorem claim_c4_amended (o : Oracles) (cfg : Cfg) (config : RunConfig)
    (s : ℚ) (br : List Row) (bsr : ℚ) (lk : Cfg)
    (h1 : toRunConfig cfg = some config)
    (h2 : alignBlock o config cfg = some (s, br, bsr, lk)) :
    mainRun o cfg Phase.align = some ([lk], br)
    ∧ cfgLookup lk "action_scale" = some (CVal.q s)
    ∧ cfgLookup lk "baseline_sr" = some (CVal.q bsr)
    ∧ bsr = (run_baseline o config s).2
    ∧ (∀ k, (cfgLookup cfg k).isSome → (cfgLookup lk k).isSome)
    ∧ (∀ k, (cfgLookup lk k).isSome →
        k = "action_scale" ∨ k = "baseline_sr" ∨
          (cfgLookup cfg k).isSome) := by
  have hmain : mainRun o cfg Phase.align = some ([lk], br) := by
    simp [mainRun, h1, h2]
  have hstruct : bsr = (run_baseline o config s).2 ∧
      lk = dictSet (dictSet cfg "action_scale" (CVal.q s)) "baseline_sr"
        (CVal.q (run_baseline o config s).2) := by
    unfold alignBlock at h2
    rcases Option.bind_eq_some.mp h2 with ⟨task0, ht, h2'⟩
    rcases Option.bind_eq_some.mp h2' with ⟨s', hs, h2''⟩
    simp only [Option.pure_def, Option.some.injEq, Prod.mk.injEq] at h2''
    obtain ⟨rfl, rfl, rfl, rfl⟩ := h2''
    exact ⟨rfl, rfl⟩
  obtain ⟨hbsr, hlk⟩ := hstruct
  refine ⟨hmain, ?_, ?_, hbsr, ?_, ?_⟩
  · rw [hlk, cfgLookup_dictSet_ne _ _ _ _ (by decide),
      cfgLookup_dictSet_self]
  · rw [hlk, cfgLookup_dictSet_self, hbsr]
  · intro k hk
    rw [hlk]
    exact cfgLookup_dictSet_isSome _ _ _ _
      (cfgLookup_dictSet_isSome _ _ _ _ hk)
  · intro k hk
    rw [hlk] at hk
    rcases cfgLookup_dictSet_isSome_inv _ _ _ _ hk with hk1 | hk1
    · exact Or.inr (Or.inl hk1)
    · rcases cfgLookup_dictSet_isSome_inv _ _ _ _ hk1 with hk2 | hk2
      · exact Or.inl hk2
      · exact Or.inr (Or.inr hk2)

/-- Witness for the amended C4: the minimal configuration under the
always-succeed oracle; phase `align` writes exactly the one locked dict
of that run. -/
theorem claim_c4_amended_witness :
    mainRun oracleYes cfgMin Phase.align =
      some ([alignMinYes.2.2.2], alignMinYes.2.1) :=
  (claim_c4_amended oracleYes cfgMin rcMin alignMinYes.1 alignMinYes.2.1
    alignMinYes.2.2.1 alignMinYes.2.2.2 (by decide) (by decide)).1

/-- Claim C5 (confirmed): in phases `align`/`all`, when the measured
baseline rate is below `baseline_min_sr` the run stops after the align
block — the ledger receives only the baseline rows, no mutation row —
yet the locked configuration has already been written; when the rate
meets the threshold in phase `all`, the run continues into
`run_mutations` (its rows are appended after the baseline rows). -/
theorem claim_c5_baseline_gate (o : Oracles) (cfg : Cfg)
    (config : RunConfig) (s : ℚ) (br : List Row) (bsr : ℚ) (lk : Cfg)
    (h1 : toRunConfig cfg = some config)
    (h2 : alignBlock o config cfg = some (s, br, bsr, lk)) :
    (bsr < config.baseline_min_sr →
      mainRun o cfg Phase.all = some ([lk], br)
      ∧ mainRun o cfg Phase.align = some ([lk], br))
    ∧ (config.baseline_min_sr ≤ bsr →
      mainRun o cfg Phase.all =
        (run_mutations o config s).map (fun m => ([lk], br ++ m))) := by
  constructor
  · intro hlt
    constructor
    · simp [mainRun, h1, h2, hlt]
    · simp [mainRun, h1, h2]
  · intro hge
    simp [mainRun, h1, h2, not_lt.mpr hge]
    cases run_mutations o config s <;> simp

/-- Witness for C5: the always-fail oracle on the minimal configuration
measures a baseline rate of 0, below the default gate 0.9; the run stops
after the align block with the locked file written. -/
theorem claim_c5_baseline_gate_witness :
    mainRun oracleNo cfgMin Phase.all =
      some ([alignMinNo.2.2.2], alignMinNo.2.1)
    ∧ mainRun oracleNo cfgMin Phase.align =
      some ([alignMinNo.2.2.2], alignMinNo.2.1) :=
  (claim_c5_baseline_gate oracleNo cfgMin rcMin alignMinNo.1
    alignMinNo.2.1 alignMinNo.2.2.1 alignMinNo.2.2.2 (by decide)
    (by decide)).1 (by decide)
